import Mathlib

/-!
Verification of the json-store core: a key-value store over a relational
table with optional per-entry TTL expiration (`JsonStore` in
`src/jsonStore.service.ts`) and a periodic sweeper
(`JsonStoreCleanupService`).  The store is modelled as an explicit list of
rows (the backing table); every store operation is a pure state
transformer that additionally reports the repository operations it issued,
mirroring the calls made on the injected TypeORM repository.

JavaScript values and JSON are modelled by a tree fragment with integer
numerics; `JSON.stringify`/`JSON.parse` of the platform are modelled by a
tagged payload (stringify output parses back to the same tree, the
standard round-trip of the platform pair) together with an executable
recursive-descent parser used for the raw-primitive fallback path of the
source (`get` tries `JSON.parse` on the stored data and falls back to the
raw value).
-/

/-- JSON trees.  Numbers are restricted to integers in this model; string
escapes are restricted to the common single-character escapes. -/
inductive Json where
  | jnull : Json
  | jbool : Bool → Json
  | jnum : Int → Json
  | jstr : String → Json
  | jarr : List Json → Json
  | jobj : List (String × Json) → Json

/-- JavaScript primitive values: the `typeof value === "object"` test in
`set` (line 67) is false for these (including `null`, excluded by
`value !== null`), so they are stored directly without stringification. -/
inductive Prim where
  | pstr : String → Prim
  | pnum : Int → Prim
  | pbool : Bool → Prim
  | pnull : Prim
deriving DecidableEq

/-- JavaScript values handed to `set`: primitives, acyclic arrays and
objects (whose `JSON.stringify` succeeds and denotes the given tree), and
objects with a reference cycle (whose `JSON.stringify` throws). -/
inductive JsValue where
  | prim : Prim → JsValue
  | arr : List Json → JsValue
  | obj : List (String × Json) → JsValue
  | cyclic : JsValue

/-- The stored `data` column content: either text produced by
`JSON.stringify` of an object/array (kept as the tree it denotes) or a
primitive stored directly (`jsonValue = value as any`, line 74). -/
inductive Payload where
  | jsonText : Json → Payload
  | raw : Prim → Payload

/-- The JavaScript value a parsed JSON tree denotes (result of a
successful `JSON.parse`). -/
def jsonToJs : Json → JsValue
  | Json.jnull => JsValue.prim Prim.pnull
  | Json.jbool b => JsValue.prim (Prim.pbool b)
  | Json.jnum n => JsValue.prim (Prim.pnum n)
  | Json.jstr s => JsValue.prim (Prim.pstr s)
  | Json.jarr l => JsValue.arr l
  | Json.jobj l => JsValue.obj l

/-- Serialization step of `set` (lines 64-79): objects and arrays go
through `JSON.stringify` (throws on a cycle, caught by the surrounding
`try`), primitives are stored directly. -/
def serializeValue : JsValue → Option Payload
  | JsValue.cyclic => none
  | JsValue.arr l => some (Payload.jsonText (Json.jarr l))
  | JsValue.obj l => some (Payload.jsonText (Json.jobj l))
  | JsValue.prim p => some (Payload.raw p)

/-- JSON insignificant whitespace. -/
def isJsonWs (c : Char) : Bool :=
  c == ' ' || c == '\t' || c == '\n' || c == '\r'

/-- Skip leading JSON whitespace. -/
def skipWs : List Char → List Char
  | [] => []
  | c :: cs => if isJsonWs c then skipWs cs else c :: cs

/-- Body of a JSON string literal after the opening quote; handles the
single-character escapes of the modelled fragment and rejects raw control
characters. -/
def parseStringAux : List Char → List Char → Option (String × List Char)
  | [], _ => none
  | '"' :: rest, acc => some (String.mk acc.reverse, rest)
  | '\\' :: c :: rest, acc =>
    if c == '"' then parseStringAux rest ('"' :: acc)
    else if c == '\\' then parseStringAux rest ('\\' :: acc)
    else if c == '/' then parseStringAux rest ('/' :: acc)
    else if c == 'n' then parseStringAux rest ('\n' :: acc)
    else if c == 't' then parseStringAux rest ('\t' :: acc)
    else if c == 'r' then parseStringAux rest ('\r' :: acc)
    else none
  | c :: rest, acc =>
    if c.toNat < 32 then none else parseStringAux rest (c :: acc)

/-- Decimal digits to a natural number. -/
def digitsToNat (ds : List Char) : Nat :=
  ds.foldl (fun acc c => acc * 10 + (c.toNat - 48)) 0

/-- JSON integer literal (the numeric fragment of the model): optional
minus sign, digits without a redundant leading zero, no fraction or
exponent. -/
def parseNum (cs : List Char) : Option (Json × List Char) :=
  let signSplit : Bool × List Char :=
    match cs with
    | '-' :: r => (true, r)
    | _ => (false, cs)
  let neg := signSplit.1
  let cs1 := signSplit.2
  let ds := cs1.takeWhile Char.isDigit
  let rest := cs1.dropWhile Char.isDigit
  if ds.length = 0 then none
  else if 1 < ds.length ∧ ds.head? = some '0' then none
  else
    match rest with
    | '.' :: _ => none
    | 'e' :: _ => none
    | 'E' :: _ => none
    | _ =>
      let n : Int := Int.ofNat (digitsToNat ds)
      some (Json.jnum (if neg then -n else n), rest)

mutual

/-- Fueled recursive-descent JSON value parser over the modelled
fragment. -/
def parseVal : Nat → List Char → Option (Json × List Char)
  | 0, _ => none
  | Nat.succ fuel, cs =>
    match skipWs cs with
    | 'n' :: 'u' :: 'l' :: 'l' :: rest => some (Json.jnull, rest)
    | 't' :: 'r' :: 'u' :: 'e' :: rest => some (Json.jbool true, rest)
    | 'f' :: 'a' :: 'l' :: 's' :: 'e' :: rest => some (Json.jbool false, rest)
    | '"' :: rest =>
      match parseStringAux rest [] with
      | some (s, r) => some (Json.jstr s, r)
      | none => none
    | '[' :: rest =>
      match skipWs rest with
      | ']' :: r2 => some (Json.jarr [], r2)
      | r2 => parseElems fuel r2 []
    | '{' :: rest =>
      match skipWs rest with
      | '}' :: r2 => some (Json.jobj [], r2)
      | r2 => parseMembers fuel r2 []
    | other => parseNum other

/-- Comma-separated array elements up to the closing bracket. -/
def parseElems : Nat → List Char → List Json → Option (Json × List Char)
  | 0, _, _ => none
  | Nat.succ fuel, cs, acc =>
    match parseVal fuel cs with
    | none => none
    | some (j, rest) =>
      match skipWs rest with
      | ',' :: r2 => parseElems fuel r2 (acc ++ [j])
      | ']' :: r2 => some (Json.jarr (acc ++ [j]), r2)
      | _ => none

/-- Comma-separated object members up to the closing brace. -/
def parseMembers : Nat → List Char → List (String × Json) → Option (Json × List Char)
  | 0, _, _ => none
  | Nat.succ fuel, cs, acc =>
    match skipWs cs with
    | '"' :: rest =>
      match parseStringAux rest [] with
      | none => none
      | some (k, r1) =>
        match skipWs r1 with
        | ':' :: r2 =>
          match parseVal fuel (skipWs r2) with
          | none => none
          | some (j, r3) =>
            match skipWs r3 with
            | ',' :: r4 => parseMembers fuel r4 (acc ++ [(k, j)])
            | '}' :: r4 => some (Json.jobj (acc ++ [(k, j)]), r4)
            | _ => none
        | _ => none
    | _ => none

end

/-- `JSON.parse` on a whole string: parse one value and require only
whitespace to remain.  `none` models a thrown `SyntaxError`. -/
def tryParseJson (s : String) : Option Json :=
  match parseVal (s.length + 1) s.data with
  | some (j, rest) => if (skipWs rest).isEmpty then some j else none
  | none => none

/-- `JSON.parse` applied to a directly stored primitive: the argument is
coerced to a string first, so numbers, booleans and null read back as
their canonical literals, while a stored string is parsed as-is. -/
def tryParseRaw : Prim → Option Json
  | Prim.pnum n => some (Json.jnum n)
  | Prim.pbool b => some (Json.jbool b)
  | Prim.pnull => some Json.jnull
  | Prim.pstr s => tryParseJson s

/-- The deserialization step of `get` (lines 44-51): try `JSON.parse` on
the stored data and, if parsing fails, return the raw stored value
as-is. -/
def parsePayload : Payload → JsValue
  | Payload.jsonText j => jsonToJs j
  | Payload.raw p =>
    match tryParseRaw p with
    | some j => jsonToJs j
    | none => JsValue.prim p

/-- A persisted row of the `json_store` table (`JsonStoreEntity`): primary
key, stored data, and the nullable `expiration_date` column as epoch
milliseconds (`getTime()`); absence models `null`/`undefined`.  The
`created_at`/`updated_at` columns are managed by the persistence layer and
play no role in any claim, so they are omitted. -/
structure StoreRow where
  key : String
  data : Payload
  expirationTimestamp : Option Int

/-- The repository operations a store call can issue, mirroring the calls
made on the injected TypeORM repository. -/
inductive RepoOp where
  | findOneByKey : String → RepoOp
  | save : StoreRow → RepoOp
  | deleteByKey : String → RepoOp
  | deleteAll : RepoOp
  | deleteWhereExpiredBefore : Int → RepoOp

/-- `repository.findOne({ where: { key } })`: first row with the key. -/
def findOne (st : List StoreRow) (k : String) : Option StoreRow :=
  st.find? (fun r => r.key == k)

/-- `repository.save(entity)`: upsert by primary key — replace the
existing row for the key, else insert. -/
def saveRow : List StoreRow → StoreRow → List StoreRow
  | [], row => [row]
  | r :: rs, row => if r.key == row.key then row :: rs else r :: saveRow rs row

/-- `repository.delete({ key })`: remove the rows with the key and report
the affected count. -/
def deleteByKey (st : List StoreRow) (k : String) : List StoreRow × Nat :=
  (st.filter (fun r => !(r.key == k)), (st.filter (fun r => r.key == k)).length)

/-- The expiry test of the source, `expirationTimestamp &&
expirationTimestamp.getTime() < Date.now()` (get, lines 36-39) and
equally the `LessThan(now)` criterion of the sweeper: present and
strictly earlier than the clock.  A SQL `NULL` never satisfies
`LessThan`, so rows without expiry are never selected. -/
def isExpiredAt (r : StoreRow) (now : Int) : Bool :=
  match r.expirationTimestamp with
  | some e => e < now
  | none => false

/-- `repository.delete({ expirationTimestamp: LessThan(now) })`: bulk
delete of the expired rows, reporting the affected count. -/
def deleteExpiredBefore (st : List StoreRow) (now : Int) : List StoreRow × Nat :=
  (st.filter (fun r => !(isExpiredAt r now)),
   (st.filter (fun r => isExpiredAt r now)).length)

/-- `DEFAULT_TTL = 0` — zero means never expires. -/
def DEFAULT_TTL : Int := 0

/-- Outcome of `JsonStore.get`: the returned value (`none` models the
`undefined` result), the table state afterwards, and the repository
operations issued. -/
structure GetOutcome where
  value : Option JsValue
  state : List StoreRow
  ops : List RepoOp

/-- Result value of `JsonStore.set`: `false` on serialization failure, or
the saved entity. -/
inductive SetResult where
  | storeFailed : SetResult
  | saved : StoreRow → SetResult

/-- Outcome of `JsonStore.set`. -/
structure SetOutcome where
  result : SetResult
  state : List StoreRow
  ops : List RepoOp

/-- Outcome of `JsonStore.delete`: `none` models the `undefined` result
for a missing key, `some n` the `DeleteResult` with affected count. -/
structure DeleteOutcome where
  result : Option Nat
  state : List StoreRow
  ops : List RepoOp

/-- `JsonStore.get` (lines 29-52): look up by key; absent gives
`undefined`; a logically expired row is deleted as a side effect and
`undefined` is returned; otherwise the payload is deserialized (with the
raw fallback) and returned. -/
def JsonStore.get (st : List StoreRow) (now : Int) (k : String) : GetOutcome :=
  match findOne st k with
  | none => ⟨none, st, [RepoOp.findOneByKey k]⟩
  | some row =>
    if isExpiredAt row now then
      ⟨none, (deleteByKey st k).1, [RepoOp.findOneByKey k, RepoOp.deleteByKey k]⟩
    else
      ⟨some (parsePayload row.data), st, [RepoOp.findOneByKey k]⟩

/-- `JsonStore.set` (lines 61-89): resolve the ttl with default 0,
serialize (returning `false` with no write on failure), set
`expirationTimestamp` to `now + ttl seconds` only when `ttl > 0`, and
save the row. -/
def JsonStore.set (st : List StoreRow) (now : Int) (k : String) (v : JsValue)
    (ttlOpt : Option Int) : SetOutcome :=
  let ttl := ttlOpt.getD DEFAULT_TTL
  match serializeValue v with
  | none => ⟨SetResult.storeFailed, st, []⟩
  | some payload =>
    let row : StoreRow :=
      ⟨k, payload, if ttl > 0 then some (now + ttl * 1000) else none⟩
    ⟨SetResult.saved row, saveRow st row, [RepoOp.save row]⟩

/-- `JsonStore.delete` (lines 96-102): find first; `undefined` with no
repository delete call when absent, otherwise an unconditional delete of
the row (no expiry re-check). -/
def JsonStore.delete (st : List StoreRow) (k : String) : DeleteOutcome :=
  match findOne st k with
  | none => ⟨none, st, [RepoOp.findOneByKey k]⟩
  | some _ =>
    ⟨some (deleteByKey st k).2, (deleteByKey st k).1,
     [RepoOp.findOneByKey k, RepoOp.deleteByKey k]⟩

/-- `JsonStore.clear` (lines 108-110): unconditional delete of every
row. -/
def JsonStore.clear (st : List StoreRow) : Nat × List StoreRow × List RepoOp :=
  (st.length, [], [RepoOp.deleteAll])

/-- Log messages emitted by the cleanup service, by call site. -/
inductive CleanupLog where
  | cleanedUp : Nat → CleanupLog
  | cleanupFailed : CleanupLog
  | scheduledCleanupError : CleanupLog
  | scheduledEvery : Int → CleanupLog
deriving DecidableEq

/-- Timer state of `JsonStoreCleanupService`: `intervalId` is the armed
`setInterval` handle or `null`. -/
structure SweeperState where
  intervalId : Option Nat
deriving DecidableEq

/-- Outcome of `JsonStoreCleanupService.cleanup`: the returned count or a
re-thrown storage error, the table state afterwards, the log lines, and
the repository operations issued. -/
structure CleanupOutcome where
  result : Except Unit Nat
  state : List StoreRow
  logs : List CleanupLog
  ops : List RepoOp

/-- `JsonStoreCleanupService.cleanup` (part_004 lines 89-108): one bulk
conditional delete of the rows with `expirationTimestamp` strictly before
`now`; logs the summary only when the count is positive; on a storage
failure (injected by `storageFailure`) logs and re-throws, leaving the
table unchanged. -/
def JsonStoreCleanupService.cleanup (st : List StoreRow) (now : Int)
    (storageFailure : Bool) : CleanupOutcome :=
  if storageFailure then
    ⟨Except.error (), st, [CleanupLog.cleanupFailed],
     [RepoOp.deleteWhereExpiredBefore now]⟩
  else
    let res := deleteExpiredBefore st now
    ⟨Except.ok res.2, res.1,
     if 0 < res.2 then [CleanupLog.cleanedUp res.2] else [],
     [RepoOp.deleteWhereExpiredBefore now]⟩

/-- Outcome of one firing of the recurring timer. -/
structure TickOutcome where
  sweeper : SweeperState
  state : List StoreRow
  logs : List CleanupLog

/-- The `setInterval` callback armed by `onModuleInit` (part_004 lines
69-73): `this.cleanup().catch(err => logger.error(...))` — an error from
a scheduled pass is caught at the scheduling boundary and logged, and the
timer handle is left untouched, so subsequent firings still occur. -/
def scheduledCleanupTick (sw : SweeperState) (st : List StoreRow) (now : Int)
    (storageFailure : Bool) : TickOutcome :=
  let c := JsonStoreCleanupService.cleanup st now storageFailure
  match c.result with
  | Except.error _ => ⟨sw, c.state, c.logs ++ [CleanupLog.scheduledCleanupError]⟩
  | Except.ok _ => ⟨sw, c.state, c.logs⟩

/-- Outcome of `onModuleDestroy`: the sweeper state afterwards and the
number of `clearInterval` calls issued. -/
structure DestroyOutcome where
  sweeper : SweeperState
  clearIntervalCalls : Nat
deriving DecidableEq

/-- `JsonStoreCleanupService.onModuleDestroy` (part_004 lines 78-83):
cancel the timer and null the handle when armed, otherwise do nothing. -/
def JsonStoreCleanupService.onModuleDestroy (sw : SweeperState) : DestroyOutcome :=
  match sw.intervalId with
  | some _ => ⟨⟨none⟩, 1⟩
  | none => ⟨sw, 0⟩

/-- A serializable value whose stored form reads back unchanged: every
acyclic object or array, and every primitive except a string whose text is
itself parseable JSON. -/
def roundTrips : JsValue → Prop
  | JsValue.prim (Prim.pstr s) => tryParseJson s = none
  | JsValue.cyclic => False
  | _ => True

theorem parsePayload_serialize (v : JsValue) (hv : roundTrips v) (p : Payload)
    (hs : serializeValue v = some p) : parsePayload p = v := by
  cases v with
  | prim q =>
    cases q with
    | pstr s =>
      simp only [serializeValue, Option.some.injEq] at hs
      subst hs
      simp only [roundTrips] at hv
      simp [parsePayload, tryParseRaw, hv]
    | pnum n =>
      simp only [serializeValue, Option.some.injEq] at hs
      subst hs
      rfl
    | pbool b =>
      simp only [serializeValue, Option.some.injEq] at hs
      subst hs
      rfl
    | pnull =>
      simp only [serializeValue, Option.some.injEq] at hs
      subst hs
      rfl
  | arr l =>
    simp only [serializeValue, Option.some.injEq] at hs
    subst hs
    rfl
  | obj l =>
    simp only [serializeValue, Option.some.injEq] at hs
    subst hs
    rfl
  | cyclic => exact absurd hv (by simp [roundTrips])

theorem findOne_saveRow (st : List StoreRow) (row : StoreRow) :
    findOne (saveRow st row) row.key = some row := by
  induction st with
  | nil => simp [findOne, saveRow, List.find?]
  | cons r rs ih =>
    by_cases h : r.key == row.key
    · simp [saveRow, h, findOne, List.find?]
    · simp only [saveRow, h, if_false]
      simp only [findOne, List.find?, h] at ih ⊢
      simpa using ih

theorem findOne_filter_erased (st : List StoreRow) (k : String) :
    findOne (st.filter fun r => !(r.key == k)) k = none := by
  simp only [findOne]
  rw [List.find?_eq_none]
  intro r hr
  simp only [List.mem_filter] at hr
  simpa using hr.2

/-- Claim C1: a `get` on a key whose row is logically expired at call time
deletes that row as a side effect (the follow-up lookup finds nothing) and
returns the absence indicator; no value is ever returned for an expired
entry. -/
theorem C1_get_expired_deletes_and_returns_none
    (st : List StoreRow) (now : Int) (k : String) (row : StoreRow) (e : Int)
    (hfind : findOne st k = some row)
    (hexp : row.expirationTimestamp = some e)
    (hlt : e < now) :
    (JsonStore.get st now k).value = none ∧
    (JsonStore.get st now k).state = (deleteByKey st k).1 ∧
    findOne (JsonStore.get st now k).state k = none ∧
    (JsonStore.get st now k).ops = [RepoOp.findOneByKey k, RepoOp.deleteByKey k] := by
  have hexpired : isExpiredAt row now = true := by
    simp [isExpiredAt, hexp, hlt]
  simp only [JsonStore.get, hfind, hexpired, if_true]
  refine ⟨trivial, trivial, ?_, trivial⟩
  exact findOne_filter_erased st k

theorem C1_witness :
    findOne [({ key := "k", data := Payload.raw (Prim.pstr "v"),
                expirationTimestamp := some 5 } : StoreRow)] "k" =
      some { key := "k", data := Payload.raw (Prim.pstr "v"),
             expirationTimestamp := some 5 } ∧
    ({ key := "k", data := Payload.raw (Prim.pstr "v"),
       expirationTimestamp := some 5 } : StoreRow).expirationTimestamp = some 5 ∧
    (5 : Int) < 10 ∧
    (JsonStore.get [({ key := "k", data := Payload.raw (Prim.pstr "v"),
                       expirationTimestamp := some 5 } : StoreRow)] 10 "k").value = none := by
  refine ⟨rfl, rfl, by decide, ?_⟩
  exact (C1_get_expired_deletes_and_returns_none
    [{ key := "k", data := Payload.raw (Prim.pstr "v"), expirationTimestamp := some 5 }]
    10 "k"
    { key := "k", data := Payload.raw (Prim.pstr "v"), expirationTimestamp := some 5 }
    5 rfl rfl (by decide)).1

theorem serialize_ok_of_roundTrips (v : JsValue) (hv : roundTrips v) :
    ∃ p, serializeValue v = some p := by
  cases v with
  | prim q => exact ⟨Payload.raw q, rfl⟩
  | arr l => exact ⟨Payload.jsonText (Json.jarr l), rfl⟩
  | obj l => exact ⟨Payload.jsonText (Json.jobj l), rfl⟩
  | cyclic => exact absurd hv (by simp [roundTrips])

theorem get_value_after_set (st : List StoreRow) (t0 t1 : Int) (k : String)
    (v : JsValue) (p : Payload) (hs : serializeValue v = some p) (ttlOpt : Option Int) :
    (JsonStore.get (JsonStore.set st t0 k v ttlOpt).state t1 k).value =
      (if isExpiredAt ⟨k, p, if ttlOpt.getD DEFAULT_TTL > 0
          then some (t0 + ttlOpt.getD DEFAULT_TTL * 1000) else none⟩ t1
       then none
       else some (parsePayload p)) := by
  simp only [JsonStore.set, hs]
  have hf := findOne_saveRow st
    ⟨k, p, if ttlOpt.getD DEFAULT_TTL > 0
      then some (t0 + ttlOpt.getD DEFAULT_TTL * 1000) else none⟩
  simp only [JsonStore.get, hf]
  split <;> first
  | rfl
  | (split <;> rfl)

/-- Claim C2 counterexample: storing the string `"true"` (a primitive, so
it is stored directly) and reading it back yields the boolean `true`, not
the original string — `JSON.parse` on the raw stored text succeeds and
changes the value. -/
theorem C2_string_true_counterexample :
    (JsonStore.get (JsonStore.set [] 0 "k" (JsValue.prim (Prim.pstr "true")) none).state
        5 "k").value = some (JsValue.prim (Prim.pbool true)) ∧
    JsValue.prim (Prim.pbool true) ≠ JsValue.prim (Prim.pstr "true") := by
  constructor
  · rfl
  · intro h
    injection h with h2
    exact Prim.noConfusion h2

/-- Claim C2 (amended): for every serializable value whose stored form
reads back unchanged — every acyclic object or array, and every primitive
except a string whose text is itself parseable JSON — a `set` with ttl
omitted or 0 followed by a `get` at any later time returns the value
unchanged; a `set` with ttl T > 0 followed by a `get` strictly before the
expiry instant returns the value, and a `get` strictly after it returns
the absence indicator. -/
theorem C2_ttl_roundtrip (st : List StoreRow) (v : JsValue) (hv : roundTrips v)
    (k : String) (t0 t1 T : Int) :
    ((JsonStore.get (JsonStore.set st t0 k v none).state t1 k).value = some v) ∧
    ((JsonStore.get (JsonStore.set st t0 k v (some 0)).state t1 k).value = some v) ∧
    (0 < T → t1 < t0 + T * 1000 →
      (JsonStore.get (JsonStore.set st t0 k v (some T)).state t1 k).value = some v) ∧
    (0 < T → t0 + T * 1000 < t1 →
      (JsonStore.get (JsonStore.set st t0 k v (some T)).state t1 k).value = none) := by
  obtain ⟨p, hs⟩ := serialize_ok_of_roundTrips v hv
  have hval := parsePayload_serialize v hv p hs
  refine ⟨?_, ?_, ?_, ?_⟩
  · rw [get_value_after_set st t0 t1 k v p hs none]
    simp [isExpiredAt, DEFAULT_TTL, hval]
  · rw [get_value_after_set st t0 t1 k v p hs (some 0)]
    simp [isExpiredAt, DEFAULT_TTL, hval]
  · intro hT ht
    rw [get_value_after_set st t0 t1 k v p hs (some T)]
    have hc : isExpiredAt ⟨k, p, if (some T).getD DEFAULT_TTL > 0
        then some (t0 + (some T).getD DEFAULT_TTL * 1000) else none⟩ t1 = false := by
      simp only [Option.getD, isExpiredAt, if_pos hT]
      simp only [decide_eq_false_iff_not]
      omega
    rw [hc]
    simp [hval]
  · intro hT ht
    rw [get_value_after_set st t0 t1 k v p hs (some T)]
    have hc : isExpiredAt ⟨k, p, if (some T).getD DEFAULT_TTL > 0
        then some (t0 + (some T).getD DEFAULT_TTL * 1000) else none⟩ t1 = true := by
      simp only [Option.getD, isExpiredAt, if_pos hT]
      simp only [decide_eq_true_eq]
      omega
    rw [hc]
    simp

theorem C2_witness :
    roundTrips (JsValue.obj [("a", Json.jstr "b")]) ∧
    (0 : Int) < 100 ∧ (50 : Int) < 0 + 100 * 1000 ∧
    ((JsonStore.get (JsonStore.set [] 0 "k" (JsValue.obj [("a", Json.jstr "b")])
        (some 100)).state 50 "k").value = some (JsValue.obj [("a", Json.jstr "b")])) := by
  refine ⟨trivial, by decide, by decide, ?_⟩
  exact (C2_ttl_roundtrip [] (JsValue.obj [("a", Json.jstr "b")]) trivial
    "k" 0 50 100).2.2.1 (by decide) (by decide)

/-- The sweeper bulk-delete scenario of the spec: expiry one hour in the
past, one hour in the future, and none, with the clock at epoch + 2h. -/
def rowExpiredHourAgo : StoreRow := ⟨"past", Payload.raw Prim.pnull, some 3600000⟩

/-- Scenario row expiring one hour in the future. -/
def rowExpiresInHour : StoreRow := ⟨"future", Payload.raw Prim.pnull, some 10800000⟩

/-- Scenario row that never expires. -/
def rowNeverExpires : StoreRow := ⟨"never", Payload.raw Prim.pnull, none⟩

/-- The three-row sweeper scenario table. -/
def sweepScenario : List StoreRow := [rowExpiredHourAgo, rowExpiresInHour, rowNeverExpires]

/-- Claim C3: `cleanup()` issues exactly one bulk conditional delete,
removes exactly the rows whose `expiresAt` is present and strictly before
the clock reading (rows without `expiresAt` always survive), and returns
the number of rows deleted; on the three-row scenario it deletes only the
hour-past row and returns 1. -/
theorem C3_cleanup_deletes_exactly_expired (st : List StoreRow) (now : Int) :
    (JsonStoreCleanupService.cleanup st now false).result =
      Except.ok (st.filter (fun r => isExpiredAt r now)).length ∧
    (∀ r, r ∈ (JsonStoreCleanupService.cleanup st now false).state ↔
      r ∈ st ∧ isExpiredAt r now = false) ∧
    (∀ r, r ∈ st → r.expirationTimestamp = none →
      r ∈ (JsonStoreCleanupService.cleanup st now false).state) ∧
    (JsonStoreCleanupService.cleanup st now false).ops =
      [RepoOp.deleteWhereExpiredBefore now] ∧
    (JsonStoreCleanupService.cleanup sweepScenario 7200000 false).result = Except.ok 1 ∧
    (JsonStoreCleanupService.cleanup sweepScenario 7200000 false).state =
      [rowExpiresInHour, rowNeverExpires] := by
  refine ⟨rfl, ?_, ?_, rfl, rfl, rfl⟩
  · intro r
    simp [JsonStoreCleanupService.cleanup, deleteExpiredBefore, List.mem_filter]
  · intro r hr hnone
    simp only [JsonStoreCleanupService.cleanup, Bool.false_eq_true, if_false,
      deleteExpiredBefore]
    exact List.mem_filter.mpr ⟨hr, by simp [isExpiredAt, hnone]⟩

theorem C3_witness :
    rowNeverExpires ∈ sweepScenario ∧
    rowNeverExpires.expirationTimestamp = none ∧
    rowNeverExpires ∈ (JsonStoreCleanupService.cleanup sweepScenario 7200000 false).state := by
  refine ⟨by simp [sweepScenario], rfl, ?_⟩
  exact (C3_cleanup_deletes_exactly_expired sweepScenario 7200000).2.2.1
    rowNeverExpires (by simp [sweepScenario]) rfl

/-- Claim C4: when the value cannot be serialized (a structure with a
reference cycle), `set` returns the failure sentinel `false` — never a
thrown exception and never a saved entity — issues no repository
operation, and leaves the state unchanged. -/
theorem C4_serialization_failure_is_noop (st : List StoreRow) (now : Int)
    (k : String) (v : JsValue) (ttlOpt : Option Int)
    (hv : serializeValue v = none) :
    JsonStore.set st now k v ttlOpt = ⟨SetResult.storeFailed, st, []⟩ := by
  simp [JsonStore.set, hv]

theorem C4_witness :
    serializeValue JsValue.cyclic = none ∧
    JsonStore.set [] 0 "k" JsValue.cyclic none =
      ⟨SetResult.storeFailed, [], []⟩ := by
  exact ⟨rfl, C4_serialization_failure_is_noop [] 0 "k" JsValue.cyclic none rfl⟩

/-- Claim C5: a successful `set` with ttl T > 0 persists
`expiresAt = now + T seconds` (milliseconds in the model), while ttl
omitted or 0 persists an absent `expiresAt`. -/
theorem C5_expiry_computation (st : List StoreRow) (now : Int) (k : String)
    (v : JsValue) (ttlOpt : Option Int) (p : Payload)
    (hs : serializeValue v = some p) :
    (∀ T, 0 < T → ttlOpt = some T →
      (JsonStore.set st now k v ttlOpt).result =
        SetResult.saved ⟨k, p, some (now + T * 1000)⟩) ∧
    (ttlOpt = none ∨ ttlOpt = some 0 →
      (JsonStore.set st now k v ttlOpt).result = SetResult.saved ⟨k, p, none⟩) := by
  constructor
  · intro T hT httl
    subst httl
    simp [JsonStore.set, hs, Option.getD, hT]
  · rintro (h | h) <;> subst h <;> simp [JsonStore.set, hs, DEFAULT_TTL]

theorem C5_witness :
    serializeValue (JsValue.prim Prim.pnull) = some (Payload.raw Prim.pnull) ∧
    (0 : Int) < 7 ∧
    (JsonStore.set [] 100 "k" (JsValue.prim Prim.pnull) (some 7)).result =
      SetResult.saved ⟨"k", Payload.raw Prim.pnull, some (100 + 7 * 1000)⟩ ∧
    (JsonStore.set [] 100 "k" (JsValue.prim Prim.pnull) none).result =
      SetResult.saved ⟨"k", Payload.raw Prim.pnull, none⟩ := by
  refine ⟨rfl, by decide, ?_, ?_⟩
  · exact (C5_expiry_computation [] 100 "k" (JsValue.prim Prim.pnull) (some 7)
      (Payload.raw Prim.pnull) rfl).1 7 (by decide) rfl
  · exact (C5_expiry_computation [] 100 "k" (JsValue.prim Prim.pnull) none
      (Payload.raw Prim.pnull) rfl).2 (Or.inl rfl)

/-- Claim C6: a storage failure inside a manually invoked `cleanup()` is
logged and re-thrown to the caller, while the same failure inside a
timer-triggered pass is caught at the scheduling boundary and logged,
leaving the timer handle untouched so subsequent firings still occur. -/
theorem C6_storage_error_paths (st : List StoreRow) (now : Int) (sw : SweeperState) :
    JsonStoreCleanupService.cleanup st now true =
      ⟨Except.error (), st, [CleanupLog.cleanupFailed],
       [RepoOp.deleteWhereExpiredBefore now]⟩ ∧
    scheduledCleanupTick sw st now true =
      ⟨sw, st, [CleanupLog.cleanupFailed, CleanupLog.scheduledCleanupError]⟩ := by
  exact ⟨rfl, rfl⟩

/-- Claim C7: `delete` on a missing key returns the absence indicator and
issues no repository delete call; `delete` on a present key (expiry is
not re-checked) unconditionally removes the row and returns a deletion
acknowledgment with a positive affected count. -/
theorem C7_delete_semantics (st : List StoreRow) (k : String) :
    (findOne st k = none →
      JsonStore.delete st k = ⟨none, st, [RepoOp.findOneByKey k]⟩) ∧
    (∀ row, findOne st k = some row →
      (JsonStore.delete st k).result = some (st.filter (fun r => r.key == k)).length ∧
      1 ≤ (st.filter (fun r => r.key == k)).length ∧
      (JsonStore.delete st k).state = st.filter (fun r => !(r.key == k)) ∧
      findOne (JsonStore.delete st k).state k = none ∧
      (JsonStore.delete st k).ops = [RepoOp.findOneByKey k, RepoOp.deleteByKey k]) := by
  constructor
  · intro h
    simp [JsonStore.delete, h]
  · intro row h
    have h' : st.find? (fun r => r.key == k) = some row := h
    have hmem : row ∈ st := List.mem_of_find?_eq_some h'
    have hkey := List.find?_some h'
    have hpos : 1 ≤ (st.filter (fun r => r.key == k)).length :=
      List.length_pos_of_mem (List.mem_filter.mpr ⟨hmem, hkey⟩)
    have hstate : (JsonStore.delete st k).state = st.filter (fun r => !(r.key == k)) := by
      simp [JsonStore.delete, h, deleteByKey]
    refine ⟨by simp [JsonStore.delete, h, deleteByKey], hpos, hstate, ?_,
      by simp [JsonStore.delete, h]⟩
    rw [hstate]
    exact findOne_filter_erased st k

theorem C7_witness :
    findOne [] "k" = none ∧
    JsonStore.delete [] "k" = ⟨none, [], [RepoOp.findOneByKey "k"]⟩ ∧
    findOne [({ key := "k", data := Payload.raw Prim.pnull,
                expirationTimestamp := some 0 } : StoreRow)] "k" =
      some { key := "k", data := Payload.raw Prim.pnull, expirationTimestamp := some 0 } ∧
    (JsonStore.delete [({ key := "k", data := Payload.raw Prim.pnull,
                          expirationTimestamp := some 0 } : StoreRow)] "k").result = some 1 := by
  refine ⟨rfl, (C7_delete_semantics [] "k").1 rfl, rfl, ?_⟩
  exact ((C7_delete_semantics
    [{ key := "k", data := Payload.raw Prim.pnull, expirationTimestamp := some 0 }] "k").2
    { key := "k", data := Payload.raw Prim.pnull, expirationTimestamp := some 0 } rfl).1

/-- Claim C8: a non-expired `get` of a row whose stored payload fails
structured JSON parsing (a raw primitive stored directly) does not fail:
it returns the raw stored payload as-is, leaving the table untouched. -/
theorem C8_raw_payload_fallback (st : List StoreRow) (now : Int) (k : String)
    (row : StoreRow) (p : Prim)
    (hfind : findOne st k = some row)
    (hdata : row.data = Payload.raw p)
    (hparse : tryParseRaw p = none)
    (hexp : isExpiredAt row now = false) :
    (JsonStore.get st now k).value = some (JsValue.prim p) ∧
    (JsonStore.get st now k).state = st ∧
    (JsonStore.get st now k).ops = [RepoOp.findOneByKey k] := by
  have hpp : parsePayload row.data = JsValue.prim p := by
    rw [hdata]
    simp [parsePayload, hparse]
  simp [JsonStore.get, hfind, hexp, hpp]

theorem C8_witness :
    findOne [({ key := "k", data := Payload.raw (Prim.pstr "a"),
                expirationTimestamp := none } : StoreRow)] "k" =
      some { key := "k", data := Payload.raw (Prim.pstr "a"), expirationTimestamp := none } ∧
    tryParseRaw (Prim.pstr "a") = none ∧
    (JsonStore.get [({ key := "k", data := Payload.raw (Prim.pstr "a"),
                       expirationTimestamp := none } : StoreRow)] 0 "k").value =
      some (JsValue.prim (Prim.pstr "a")) := by
  refine ⟨rfl, rfl, ?_⟩
  exact (C8_raw_payload_fallback
    [{ key := "k", data := Payload.raw (Prim.pstr "a"), expirationTimestamp := none }]
    0 "k"
    { key := "k", data := Payload.raw (Prim.pstr "a"), expirationTimestamp := none }
    (Prim.pstr "a") rfl rfl rfl rfl).1

/-- Claim C9: teardown is idempotent — with no timer armed it is a no-op
issuing no `clearInterval` call; with a timer armed it cancels it once and
nulls the handle, so a second teardown has no further effect. -/
theorem C9_teardown_idempotent :
    JsonStoreCleanupService.onModuleDestroy ⟨none⟩ = ⟨⟨none⟩, 0⟩ ∧
    (∀ t : Nat, JsonStoreCleanupService.onModuleDestroy ⟨some t⟩ = ⟨⟨none⟩, 1⟩) ∧
    (∀ sw : SweeperState,
      JsonStoreCleanupService.onModuleDestroy
          (JsonStoreCleanupService.onModuleDestroy sw).sweeper =
        ⟨(JsonStoreCleanupService.onModuleDestroy sw).sweeper, 0⟩) := by
  refine ⟨rfl, fun t => rfl, fun sw => ?_⟩
  cases sw with
  | mk iid => cases iid <;> rfl

/-- Claim C10: a `set` with a negative ttl takes the `ttl > 0` test false
branch, so the entry is persisted with absent `expiresAt` — exactly like
ttl = 0, never expiring — rather than being rejected or stored already
expired. -/
theorem C10_negative_ttl_never_expires (st : List StoreRow) (now : Int)
    (k : String) (v : JsValue) (T : Int) (p : Payload)
    (hs : serializeValue v = some p) (hT : T < 0) :
    (JsonStore.set st now k v (some T)).result = SetResult.saved ⟨k, p, none⟩ ∧
    JsonStore.set st now k v (some T) = JsonStore.set st now k v (some 0) ∧
    (∀ t : Int, isExpiredAt ⟨k, p, none⟩ t = false) := by
  have hT' : ¬ (T > 0) := by omega
  refine ⟨?_, ?_, fun t => rfl⟩
  · simp [JsonStore.set, hs, Option.getD, hT']
  · simp [JsonStore.set, hs, Option.getD, hT', DEFAULT_TTL]

theorem C10_witness :
    serializeValue (JsValue.prim Prim.pnull) = some (Payload.raw Prim.pnull) ∧
    (-5 : Int) < 0 ∧
    (JsonStore.set [] 100 "k" (JsValue.prim Prim.pnull) (some (-5))).result =
      SetResult.saved ⟨"k", Payload.raw Prim.pnull, none⟩ := by
  refine ⟨rfl, by decide, ?_⟩
  exact (C10_negative_ttl_never_expires [] 100 "k" (JsValue.prim Prim.pnull)
    (-5) (Payload.raw Prim.pnull) rfl (by decide)).1
